import Mathlib

/-!
Shallow embedding of `Gs::AffineMatrix3T` from `include/Gauss/AffineMatrix3.h`
of the GaussianLib repository, together with theorems settling the claims
about it.

The C++ class is a 2D affine transform stored sparsely: only 6 scalar
elements are kept (a logical 2x3 block under column vectors, 3x2 under row
vectors); the omitted homogeneous row/column is implicitly (0, 0, 1).
Two compile-time switches configure the type:
  - `GS_ROW_MAJOR_STORAGE` : physical layout (default: column-major);
  - `GS_ROW_VECTORS`       : vector convention (default: column vectors).
We model the pair of switches as an explicit `Cfg` value threaded through
every operation, so the theorems quantify over all four build configurations.

The scalar type `T` is modelled as `ℚ` (the C++ template is generic over a
numeric type; `ℚ` gives exact, decidable arithmetic including the division
used by inversion).

The header under `src/` contains only `AffineMatrix3.h`.  The collaborators
it calls - the dense `Matrix` type, `Gs::Determinant`, `Gs::Inverse` and
`Details::MulAffineMatrices` - live in headers not present in `src/`; each of
those is modelled from the spec and marked as such in its doc comment.
-/

namespace Gs

/-- Cfg models the two compile-time configuration switches of the header:
`rowMajor` is true when `GS_ROW_MAJOR_STORAGE` is defined, `rowVectors` is
true when `GS_ROW_VECTORS` is defined.  The default build has both false. -/
structure Cfg where
  rowMajor : Bool
  rowVectors : Bool
deriving DecidableEq, Repr

/-- defaultCfg is the default build: column-major storage, column vectors. -/
def defaultCfg : Cfg := ⟨false, false⟩

/-- rowsSparse from the header: 3 if `GS_ROW_VECTORS` is defined, else 2. -/
def rowsSparse (c : Cfg) : ℕ := if c.rowVectors then 3 else 2

/-- columnsSparse from the header: 2 if `GS_ROW_VECTORS` is defined, else 3. -/
def columnsSparse (c : Cfg) : ℕ := if c.rowVectors then 2 else 3

/-- elementsSparse = rowsSparse * columnsSparse = 6 in every configuration. -/
def elementsSparse : ℕ := 6

/-- AffineMatrix3 models the physical state of `AffineMatrix3T<T>`: the
backing array `T m_[elementsSparse]` of 6 scalars. -/
def AffineMatrix3 : Type := Fin 6 → ℚ

instance : DecidableEq AffineMatrix3 :=
  inferInstanceAs (DecidableEq (Fin 6 → ℚ))

/-- offset is the logical-to-physical index map used by `operator()`:
`row*columnsSparse + col` under row-major storage,
`col*rowsSparse + row` under column-major storage (the default). -/
def offset (c : Cfg) (row col : ℕ) : ℕ :=
  if c.rowMajor then row * columnsSparse c + col else col * rowsSparse c + row

/-- appGet models the const `operator()(row, col)` read: the assertion-guarded
access `m_[offset]`.  Out-of-range offsets (which the C++ assertion forbids)
return a junk value of 0. -/
def appGet (c : Cfg) (M : AffineMatrix3) (row col : ℕ) : ℚ :=
  if h : offset c row col < 6 then M ⟨offset c row col, h⟩ else 0

/-- appSet models a write through the mutable `operator()(row, col)`:
`m_[offset] = v`, leaving every other physical slot unchanged. -/
def appSet (c : Cfg) (M : AffineMatrix3) (row col : ℕ) (v : ℚ) : AffineMatrix3 :=
  fun i => if i.val = offset c row col then v else M i

/-- flatGet models the const `operator[](element)` read: the
assertion-guarded flat access `m_[element]`. -/
def flatGet (M : AffineMatrix3) (e : ℕ) : ℚ :=
  if h : e < 6 then M ⟨e, h⟩ else 0

/-- AtGet models the const `At` accessor.  Under column vectors it forwards
`At(row, col)` to `operator()(row, col)`; under row vectors the header
declares `At(col, row)` and forwards to `operator()(row, col)`, i.e. the two
arguments are swapped before reaching the primary indexer. -/
def AtGet (c : Cfg) (M : AffineMatrix3) (a b : ℕ) : ℚ :=
  if c.rowVectors then appGet c M b a else appGet c M a b

/-- AtSet models a write through the mutable `At` accessor, with the same
argument swap under row vectors as `AtGet`. -/
def AtSet (c : Cfg) (M : AffineMatrix3) (a b : ℕ) (v : ℚ) : AffineMatrix3 :=
  if c.rowVectors then appSet c M b a v else appSet c M a b v

/-- Reset models `Reset()`: zero-fill of all 6 physical slots.  The default
constructor calls it (when `GS_ENABLE_AUTO_INIT` is not defined). -/
def Reset : AffineMatrix3 := fun _ => 0

/-- foreachRC models the `__GS_FOREACH_ROW_COL__(r, c)` macro: the list of
logical (row, col) pairs in iteration order - rows outer under row-major
storage, columns outer under column-major storage. -/
def foreachRC (c : Cfg) : List (ℕ × ℕ) :=
  if c.rowMajor then
    (List.range (rowsSparse c)).flatMap
      (fun r => (List.range (columnsSparse c)).map (fun col => (r, col)))
  else
    (List.range (columnsSparse c)).flatMap
      (fun col => (List.range (rowsSparse c)).map (fun r => (r, col)))

/-- LoadIdentity models `LoadIdentity()`: for each logical (r, c) in
iteration order, assign 1 on the diagonal and 0 elsewhere through
`operator()`. -/
def LoadIdentity (c : Cfg) (M : AffineMatrix3) : AffineMatrix3 :=
  (foreachRC c).foldl
    (fun A rc => appSet c A rc.1 rc.2 (if rc.1 = rc.2 then 1 else 0)) M

/-- Identity models the static `Identity()`: default-construct (zero-fill via
`Reset`), then `LoadIdentity`. -/
def Identity (c : Cfg) : AffineMatrix3 := LoadIdentity c Reset

/-- Trace models `Trace()`: `(*this)(0, 0) + (*this)(1, 1) + T(1)`, read
directly from the header. -/
def Trace (c : Cfg) (M : AffineMatrix3) : ℚ :=
  appGet c M 0 0 + appGet c M 1 1 + 1

/-- Dense3 models the external dense 3x3 `Matrix<T, 3, 3>` type
(`TransposedType`) as a function from (row, col) to the scalar. -/
def Dense3 : Type := Fin 3 → Fin 3 → ℚ

instance : DecidableEq Dense3 :=
  inferInstanceAs (DecidableEq (Fin 3 → Fin 3 → ℚ))

/-- denseGet is guarded (row, col) access on the dense 3x3 matrix,
mirroring its assertion-checked `operator()`. -/
def denseGet (P : Dense3) (r col : ℕ) : ℚ :=
  if h : r < 3 ∧ col < 3 then P ⟨r, h.1⟩ ⟨col, h.2⟩ else 0

/-- denseSet writes one (row, col) entry of the dense 3x3 matrix. -/
def denseSet (P : Dense3) (r col : ℕ) (v : ℚ) : Dense3 :=
  fun i j => if i.val = r ∧ j.val = col then v else P i j

/-- denseZero is the default-constructed dense matrix.  Modelled from the
spec: the dense `Matrix` type is a collaborator outside `src/`; per the
spec default-constructed instances are zero-filled (auto-init). -/
def denseZero : Dense3 := fun _ _ => 0

/-- Transposed models `Transposed()` from the header: default-construct the
dense result, then for each sparse (r, c) in iteration order assign
`result(c, r) = (*this)(r, c)`.  The header's final loop executes the
expression statement `result(i, ThisType::rowsSparse);` which performs no
assignment, so it has no effect on the result and contributes nothing here. -/
def Transposed (c : Cfg) (M : AffineMatrix3) : Dense3 :=
  (foreachRC c).foldl
    (fun R rc => denseSet R rc.2 rc.1 (appGet c M rc.1 rc.2)) denseZero

/-- promote is the logical 3x3 completion of the sparse matrix.  Modelled
from the spec: under column vectors the stored 2x3 block is completed with
the implicit bottom row (0, 0, 1); under row vectors the stored 3x2 block is
completed with the implicit last column (0, 0, 1). -/
def promote (c : Cfg) (M : AffineMatrix3) : Dense3 :=
  fun r col =>
    if c.rowVectors then
      if col.val < 2 then appGet c M r.val col.val
      else if r.val = 2 then 1 else 0
    else
      if r.val < 2 then appGet c M r.val col.val
      else if col.val = 2 then 1 else 0

/-- denseTranspose is the mathematical transpose of a dense 3x3 matrix; it
is the spec-side reference against which `Transposed` is compared. -/
def denseTranspose (P : Dense3) : Dense3 := fun i j => P j i

/-- MulAffineMatrices models `Details::MulAffineMatrices(lhs, rhs)`.
Modelled from the spec: the product must equal, bit for bit, promoting both
operands to their dense 3x3 forms, multiplying, and truncating back to the
sparse block; physical slot i of the result holds the logical entry whose
offset is i. -/
def MulAffineMatrices (c : Cfg) (A B : AffineMatrix3) : AffineMatrix3 :=
  fun i =>
    let r : ℕ := if c.rowMajor then i.val / columnsSparse c else i.val % rowsSparse c
    let col : ℕ := if c.rowMajor then i.val % columnsSparse c else i.val / rowsSparse c
    denseGet (promote c A) r 0 * denseGet (promote c B) 0 col +
    denseGet (promote c A) r 1 * denseGet (promote c B) 1 col +
    denseGet (promote c A) r 2 * denseGet (promote c B) 2 col

/-- det3 is the cofactor-expansion determinant of a dense 3x3 matrix. -/
def det3 (P : Dense3) : ℚ :=
  denseGet P 0 0 * (denseGet P 1 1 * denseGet P 2 2 - denseGet P 1 2 * denseGet P 2 1) -
  denseGet P 0 1 * (denseGet P 1 0 * denseGet P 2 2 - denseGet P 1 2 * denseGet P 2 0) +
  denseGet P 0 2 * (denseGet P 1 0 * denseGet P 2 1 - denseGet P 1 1 * denseGet P 2 0)

/-- Determinant models `Determinant()`, which delegates to the external
`Gs::Determinant`.  Modelled from the spec: the general matrix-determinant
algorithm applied to the logical (implicit-row-completed) 3x3 form. -/
def Determinant (c : Cfg) (M : AffineMatrix3) : ℚ :=
  det3 (promote c M)

/-- GsInverse models the external routine `Gs::Inverse(out, in) -> bool`
specialized for the sparse affine form.  Modelled from the spec: with the
convention-normalized linear part L = [[a, b], [d, e]] and translation
(tx, ty), singularity (determinant of L equal to zero) is detected and
reported as failure with the output left untouched; otherwise the output
receives the affine inverse: linear part adj(L)/det and translation
-(adj(L)/det)·t. -/
def GsInverse (c : Cfg) (M : AffineMatrix3) : Option AffineMatrix3 :=
  let a := AtGet c M 0 0
  let b := AtGet c M 0 1
  let d := AtGet c M 1 0
  let e := AtGet c M 1 1
  let tx := AtGet c M 0 2
  let ty := AtGet c M 1 2
  let det := a * e - b * d
  if det = 0 then none
  else
    let ia := e / det
    let ib := -b / det
    let id := -d / det
    let ie := a / det
    some (AtSet c (AtSet c (AtSet c (AtSet c (AtSet c (AtSet c M
      0 0 ia) 0 1 ib) 1 0 id) 1 1 ie)
      0 2 (-(ia * tx + ib * ty))) 1 2 (-(id * tx + ie * ty)))

/-- MakeInverse models `MakeInverse()`: it invokes `Gs::Inverse` with a copy
of the matrix as input and the matrix itself as output, returning the bool;
on failure the matrix is left unchanged. -/
def MakeInverse (c : Cfg) (M : AffineMatrix3) : AffineMatrix3 × Bool :=
  match GsInverse c M with
  | some inv => (inv, true)
  | none => (M, false)

/-- Inverse models the copy-returning `Inverse()`: copy, call
`MakeInverse` on the copy discarding its boolean result, return the copy. -/
def Inverse (c : Cfg) (M : AffineMatrix3) : AffineMatrix3 :=
  (MakeInverse c M).1

/-- Vector2 models `Vector2T<T>` as an (x, y) pair of scalars. -/
def Vector2 : Type := ℚ × ℚ

/-- SetPosition models `SetPosition(position)`:
`At(0, 2) = position.x; At(1, 2) = position.y`. -/
def SetPosition (c : Cfg) (M : AffineMatrix3) (p : Vector2) : AffineMatrix3 :=
  AtSet c (AtSet c M 0 2 p.1) 1 2 p.2

/-- GetPosition models `GetPosition()`: `Vector2T<T>(At(0, 2), At(1, 2))`. -/
def GetPosition (c : Cfg) (M : AffineMatrix3) : Vector2 :=
  (AtGet c M 0 2, AtGet c M 1 2)

/-- streamWrite models one step of `Initializer::operator,`: the k-th
streamed value is assigned through
`matrix_(element_ / columnsSparse, element_ % columnsSparse)`. -/
def streamWrite (c : Cfg) (M : AffineMatrix3) (k : ℕ) (v : ℚ) : AffineMatrix3 :=
  appSet c M (k / columnsSparse c) (k % columnsSparse c) v

/-- streamLoad models `matrix << v0, v1, ...`: `operator<<` constructs an
`Initializer` with counter 0 and feeds the first value to `operator,`; each
subsequent comma feeds the next value with the counter incremented. -/
def streamLoad (c : Cfg) (M : AffineMatrix3) (vs : List ℚ) : AffineMatrix3 :=
  vs.enum.foldl (fun A p => streamWrite c A p.1 p.2) M

/-! Theorems. -/

/-- Shared bound: valid logical indices map to physical offsets below 6. -/
theorem offset_lt (c : Cfg) (row col : ℕ)
    (hr : row < rowsSparse c) (hc : col < columnsSparse c) :
    offset c row col < 6 := by
  rcases c with ⟨rm, rv⟩
  cases rm <;> cases rv <;>
    simp [offset, rowsSparse, columnsSparse] at hr hc ⊢ <;> omega

/-- Evaluation of the identity matrix layout: column-major, column vectors. -/
theorem Identity_eval_ff :
    Identity ⟨false, false⟩ = fun i => if i = 0 ∨ i = 3 then 1 else 0 := by
  funext i; fin_cases i <;> rfl

/-- Evaluation of the identity matrix layout: row-major, column vectors. -/
theorem Identity_eval_tf :
    Identity ⟨true, false⟩ = fun i => if i = 0 ∨ i = 4 then 1 else 0 := by
  funext i; fin_cases i <;> rfl

/-- Evaluation of the identity matrix layout: column-major, row vectors. -/
theorem Identity_eval_ft :
    Identity ⟨false, true⟩ = fun i => if i = 0 ∨ i = 4 then 1 else 0 := by
  funext i; fin_cases i <;> rfl

/-- Evaluation of the identity matrix layout: row-major, row vectors. -/
theorem Identity_eval_tt :
    Identity ⟨true, true⟩ = fun i => if i = 0 ∨ i = 3 then 1 else 0 := by
  funext i; fin_cases i <;> rfl

/-- Numeric values of the Fin 6 literals, used to discharge index
computations in simp proofs. -/
theorem fval6 :
    ((0 : Fin 6) : ℕ) = 0 ∧ ((1 : Fin 6) : ℕ) = 1 ∧ ((2 : Fin 6) : ℕ) = 2 ∧
    ((3 : Fin 6) : ℕ) = 3 ∧ ((4 : Fin 6) : ℕ) = 4 ∧ ((5 : Fin 6) : ℕ) = 5 := by decide

/-- Inversion of the zero matrix fails: the modelled `Gs::Inverse` detects
the zero determinant and reports failure. -/
theorem GsInverse_reset_none : GsInverse defaultCfg Reset = none := by
  simp [GsInverse, AtGet, appGet, offset, rowsSparse, columnsSparse, Reset, defaultCfg]

/-- C10: for every valid logical (row, col), the physical offset computed by
`operator()` follows the row-major / column-major formula and is strictly
below `elementsSparse = 6`, so the assertion-guarded access never leaves the
6-element backing array, in every configuration. -/
theorem C10_offset_in_bounds (c : Cfg) (row col : ℕ)
    (hr : row < rowsSparse c) (hc : col < columnsSparse c) :
    offset c row col =
      (if c.rowMajor then row * columnsSparse c + col else col * rowsSparse c + row) ∧
    elementsSparse = 6 ∧
    offset c row col < elementsSparse :=
  ⟨rfl, rfl, offset_lt c row col hr hc⟩

/-- Witness for C10 at row 1, col 2 in the default configuration. -/
theorem C10_offset_in_bounds_witness :
    1 < rowsSparse defaultCfg ∧ 2 < columnsSparse defaultCfg ∧
    offset defaultCfg 1 2 < elementsSparse :=
  ⟨by decide, by decide,
    (C10_offset_in_bounds defaultCfg 1 2 (by decide) (by decide)).2.2⟩

/-- C5: for every valid logical (row, col), reading through `operator()`
yields the same value as reading through `operator[]` at the flat index
given by the active storage-order mapping. -/
theorem C5_paren_flat_consistent (c : Cfg) (M : AffineMatrix3) (row col : ℕ)
    (hr : row < rowsSparse c) (hc : col < columnsSparse c) :
    appGet c M row col = flatGet M (offset c row col) := by
  have h := offset_lt c row col hr hc
  simp [appGet, flatGet, h]

/-- Witness for C5 at row 1, col 2 of the identity in the default
configuration. -/
theorem C5_paren_flat_consistent_witness :
    1 < rowsSparse defaultCfg ∧ 2 < columnsSparse defaultCfg ∧
    appGet defaultCfg (Identity defaultCfg) 1 2 =
      flatGet (Identity defaultCfg) (offset defaultCfg 1 2) :=
  ⟨by decide, by decide,
    C5_paren_flat_consistent defaultCfg (Identity defaultCfg) 1 2 (by decide) (by decide)⟩

/-- C9: writing through `operator()` at a valid (row, col) touches exactly
the single physical slot at the computed offset: that slot takes the new
value and every other flat index below 6 reads back unchanged, in every
configuration. -/
theorem C9_write_frame (c : Cfg) (M : AffineMatrix3) (row col : ℕ) (v : ℚ)
    (hr : row < rowsSparse c) (hc : col < columnsSparse c) :
    offset c row col < 6 ∧
    flatGet (appSet c M row col v) (offset c row col) = v ∧
    ∀ j, j < 6 → j ≠ offset c row col →
      flatGet (appSet c M row col v) j = flatGet M j := by
  have h := offset_lt c row col hr hc
  refine ⟨h, ?_, ?_⟩
  · simp [flatGet, appSet, h]
  · intro j hj hne
    simp [flatGet, appSet, hj, hne]

/-- Witness for C9: writing 42 at (0, 1) of the identity in the default
configuration changes slot 2 and only slot 2. -/
theorem C9_write_frame_witness :
    0 < rowsSparse defaultCfg ∧ 1 < columnsSparse defaultCfg ∧
    (offset defaultCfg 0 1 < 6 ∧
     flatGet (appSet defaultCfg (Identity defaultCfg) 0 1 42) (offset defaultCfg 0 1) = 42 ∧
     ∀ j, j < 6 → j ≠ offset defaultCfg 0 1 →
       flatGet (appSet defaultCfg (Identity defaultCfg) 0 1 42) j =
         flatGet (Identity defaultCfg) j) :=
  ⟨by decide, by decide,
    C9_write_frame defaultCfg (Identity defaultCfg) 0 1 42 (by decide) (by decide)⟩

/-- C6: setting the position then reading it back returns the same
2-component vector, in every combination of the storage-order and
vector-convention switches. -/
theorem C6_position_roundtrip (c : Cfg) (M : AffineMatrix3) (p : Vector2) :
    GetPosition c (SetPosition c M p) = p := by
  obtain ⟨x, y⟩ := p
  rcases c with ⟨rm, rv⟩
  cases rm <;> cases rv <;> rfl

/-- C8: the trace is `M(0,0) + M(1,1) + 1` with the implicit diagonal 1
supplied by the formula, and at the identity matrix the trace is 3 and the
determinant is 1, in every configuration. -/
theorem C8_trace_det (c : Cfg) :
    (∀ M, Trace c M = appGet c M 0 0 + appGet c M 1 1 + 1) ∧
    Trace c (Identity c) = 3 ∧
    Determinant c (Identity c) = 1 := by
  refine ⟨fun M => rfl, ?_, ?_⟩ <;>
    rcases c with ⟨rm, rv⟩ <;> cases rm <;> cases rv <;>
    simp [Trace, Determinant, det3, denseGet, promote, appGet, offset, rowsSparse,
      columnsSparse, Identity_eval_ff, Identity_eval_tf, Identity_eval_ft, Identity_eval_tt] <;>
    norm_num

/-- C4: the affine multiply satisfies the identity law in every
configuration: `M * Identity() = M` and `Identity() * M = M`, with the
multiply modelled from the spec as the dense-promotion product truncated
back to the sparse form. -/
theorem C4_identity_law (c : Cfg) (M : AffineMatrix3) :
    MulAffineMatrices c M (Identity c) = M ∧
    MulAffineMatrices c (Identity c) M = M := by
  rcases c with ⟨rm, rv⟩
  cases rm <;> cases rv <;>
    refine ⟨funext fun i => ?_, funext fun i => ?_⟩ <;>
    fin_cases i <;>
    simp [MulAffineMatrices, denseGet, promote, appGet, offset, rowsSparse, columnsSparse,
      Identity_eval_ff, Identity_eval_tf, Identity_eval_ft, Identity_eval_tt]

/-- C7: for every matrix whose four convention-normalized linear entries are
zero, `MakeInverse()` reports failure and leaves the matrix unchanged
(it neither throws nor substitutes a default value). -/
theorem C7_singular_zero_linear (c : Cfg) (M : AffineMatrix3)
    (h00 : AtGet c M 0 0 = 0) (h01 : AtGet c M 0 1 = 0)
    (h10 : AtGet c M 1 0 = 0) (h11 : AtGet c M 1 1 = 0) :
    MakeInverse c M = (M, false) := by
  simp [MakeInverse, GsInverse, h00, h01, h10, h11]

/-- Witness for C7: the zero matrix in the default configuration has a zero
linear part and `MakeInverse` on it returns the unchanged matrix and
failure. -/
theorem C7_singular_zero_linear_witness :
    AtGet defaultCfg Reset 0 0 = 0 ∧ AtGet defaultCfg Reset 0 1 = 0 ∧
    AtGet defaultCfg Reset 1 0 = 0 ∧ AtGet defaultCfg Reset 1 1 = 0 ∧
    MakeInverse defaultCfg Reset = (Reset, false) :=
  ⟨rfl, rfl, rfl, rfl, C7_singular_zero_linear defaultCfg Reset rfl rfl rfl rfl⟩

/-- C3, counterexample: the claim that the k-th streamed value lands at
physical flat index k fails in the default (column-major) configuration:
streaming 10, 11, 12, 13, 14, 15 puts the value 11 (k = 1) at flat index 2,
and flat index 1 holds 13 (the k = 3 value). -/
theorem C3_stream_not_physical_flat_order :
    flatGet (streamLoad defaultCfg Reset [10, 11, 12, 13, 14, 15]) 1 = 13 ∧
    flatGet (streamLoad defaultCfg Reset [10, 11, 12, 13, 14, 15]) 2 = 11 ∧
    flatGet (streamLoad defaultCfg Reset [10, 11, 12, 13, 14, 15]) 1 ≠ 11 := by decide

/-- C3, amended: the k-th streamed value is written through `operator()` at
logical position (k / columnsSparse, k % columnsSparse) - row-major logical
order - hence it reaches the physical slot at the active storage-order
offset of that position; only under row-major storage does that offset
equal k itself. -/
theorem C3_stream_logical_order (c : Cfg) (v0 v1 v2 v3 v4 v5 : ℚ) :
    (∀ k, k < 6 →
      flatGet (streamLoad c Reset [v0, v1, v2, v3, v4, v5])
        (offset c (k / columnsSparse c) (k % columnsSparse c)) =
        [v0, v1, v2, v3, v4, v5].getD k 0) ∧
    (c.rowMajor = true → ∀ k, k < 6 →
      offset c (k / columnsSparse c) (k % columnsSparse c) = k) := by
  rcases c with ⟨rm, rv⟩
  constructor
  · intro k hk
    interval_cases k <;> cases rm <;> cases rv <;>
      simp [streamLoad, streamWrite, flatGet, appSet, offset, columnsSparse, rowsSparse,
        Reset, List.enum, List.enumFrom, fval6.1, fval6.2.1, fval6.2.2.1, fval6.2.2.2.1,
        fval6.2.2.2.2]
  · intro hm k hk
    subst hm
    interval_cases k <;> cases rv <;>
      simp [offset, columnsSparse, rowsSparse]

/-- Witness for C3 at k = 1 in the default configuration: the second
streamed value is read back at the offset of logical position (0, 1). -/
theorem C3_stream_logical_order_witness :
    (1 : ℕ) < 6 ∧
    flatGet (streamLoad defaultCfg Reset [10, 11, 12, 13, 14, 15])
      (offset defaultCfg (1 / columnsSparse defaultCfg) (1 % columnsSparse defaultCfg)) =
      [(10 : ℚ), 11, 12, 13, 14, 15].getD 1 0 :=
  ⟨by decide, (C3_stream_logical_order defaultCfg 10 11 12 13 14 15).1 1 (by decide)⟩

/-- C2, counterexample: `Inverse()` does not let its caller observe the
failure that `MakeInverse()` reports.  On the singular zero matrix
`MakeInverse` reports false, on the identity it reports true, yet both
`Inverse` calls return exactly their argument: the returned matrix is the
only observable of the call and carries no failure signal. -/
theorem C2_inverse_no_failure_signal :
    (MakeInverse defaultCfg Reset).2 = false ∧
    (MakeInverse defaultCfg (Identity defaultCfg)).2 = true ∧
    Inverse defaultCfg Reset = Reset ∧
    Inverse defaultCfg (Identity defaultCfg) = Identity defaultCfg := by
  refine ⟨?_, ?_, ?_, ?_⟩
  · simp [MakeInverse, GsInverse_reset_none]
  · simp [MakeInverse, GsInverse, AtGet, AtSet, appGet, appSet, offset, rowsSparse,
      columnsSparse, Identity_eval_ff, defaultCfg, fval6.1, fval6.2.1, fval6.2.2.1,
      fval6.2.2.2.1, fval6.2.2.2.2]
  · simp [Inverse, MakeInverse, GsInverse_reset_none]
  · funext i
    fin_cases i <;>
      simp [Inverse, MakeInverse, GsInverse, AtGet, AtSet, appGet, appSet, offset,
        rowsSparse, columnsSparse, Identity_eval_ff, defaultCfg, fval6.1, fval6.2.1,
        fval6.2.2.1, fval6.2.2.2.1, fval6.2.2.2.2]

/-- C2, amended: `Inverse()` discards the boolean that `MakeInverse()`
produces; when inversion fails it returns the copy unchanged from the
original, so the failure is not observable from the call itself. -/
theorem C2_inverse_discards_flag (c : Cfg) (M : AffineMatrix3)
    (h : (MakeInverse c M).2 = false) :
    Inverse c M = M := by
  cases hg : GsInverse c M with
  | none => simp [Inverse, MakeInverse, hg]
  | some inv => simp [MakeInverse, hg] at h

/-- Witness for C2 on the singular zero matrix in the default
configuration. -/
theorem C2_inverse_discards_flag_witness :
    (MakeInverse defaultCfg Reset).2 = false ∧ Inverse defaultCfg Reset = Reset :=
  ⟨by simp [MakeInverse, GsInverse_reset_none],
    C2_inverse_discards_flag defaultCfg Reset (by simp [MakeInverse, GsInverse_reset_none])⟩

/-- C1: evaluation of `Transposed()` at the failing input.  In the default
configuration on the identity matrix the code's dense result has 0 at the
corner entry (2, 2), while the transpose of the dense 3x3 promotion has 1
there, so the two disagree: the implicit-row entries are absent from the
output because the header's final loop (`result(i, ThisType::rowsSparse);`)
assigns nothing. -/
theorem C1_transposed_missing_implicit_entries :
    denseGet (Transposed defaultCfg (Identity defaultCfg)) 2 2 = 0 ∧
    denseGet (denseTranspose (promote defaultCfg (Identity defaultCfg))) 2 2 = 1 ∧
    Transposed defaultCfg (Identity defaultCfg) ≠
      denseTranspose (promote defaultCfg (Identity defaultCfg)) := by
  refine ⟨rfl, rfl, ?_⟩
  decide

end Gs
